import Mathlib

/-!
Shallow embedding of the autonomy "computation" job lifecycle of
`backend/src/controllers/autonomy.controller.ts` (class `AutonomyController`):
the in-memory job map, the submit endpoint (`triggerRecomputation`), its
one-shot `setTimeout` completion callback, `cancelComputation`,
`getComputationResults`, `getComputationHistory`, `scheduleComputation`
(only its effect on the schedule count) and `getMetrics`.

Modelling choices, each forced by the TypeScript source:
- `Map<string, any>` preserving insertion order becomes a `List Computation`;
  `uuidv4()` freshness becomes an explicit precondition of the submit step.
- `new Date()` timestamps become `Nat` instants supplied by the environment.
- `Math.random()` becomes a rational oracle value `r` with `0 ≤ r < 1`
  supplied at trigger-fire time; the callback computes
  `accuracy = r * 0.2 + 0.8` exactly as the source does.
- The one-shot nature of `setTimeout` is modelled by a `pendingTimers` list:
  submit arms a timer for the new id, and a fire step is only enabled for an
  armed id and disarms it.
- JS truthiness in `parameters?.iterations || 100` (absent bag, absent field
  or `0` all yield `100`) and in `status ? filter : all` (an empty-string
  status query is falsy, hence no filtering) is reproduced literally.
-/

namespace JuggernautAutonomy

/-- The caller-supplied `parameters` bag; the source only ever reads its
`iterations` field (in the completion callback). -/
structure Params where
  iterations : Option Nat
deriving DecidableEq

/-- The fabricated result object attached by the completion callback:
`{ accuracy: Math.random() * 0.2 + 0.8, iterations: parameters?.iterations || 100, convergence: true }`. -/
structure CompResults where
  accuracy : ℚ
  iterations : Nat
  convergence : Bool
deriving DecidableEq

/-- One record of the `computations` map.  Fields are exactly those the
source ever assigns: the object literal built in `triggerRecomputation`
plus the fields later mutated by the callback (`status`, `progress`,
`completedAt`, `results`) and by `cancelComputation` (`status`,
`cancelledAt`).  Fields absent until assigned are `Option`s.  No `error`
field exists anywhere in the source. -/
structure Computation where
  id : String
  datasetId : String
  status : String
  startedAt : Nat
  parameters : Option Params
  options : Option String
  progress : Nat
  completedAt : Option Nat
  cancelledAt : Option Nat
  results : Option CompResults
deriving DecidableEq

/-- Controller state: the `computations` map (insertion-ordered), the armed
one-shot timers, and the size of the `schedules` map (only its size is
observable through `getMetrics`). -/
structure CState where
  jobs : List Computation
  pendingTimers : List String
  schedules : Nat
deriving DecidableEq

/-- Fresh controller: `private computations: Map<string, any> = new Map()`. -/
def initState : CState := { jobs := [], pendingTimers := [], schedules := 0 }

/-- `this.computations.get(i)`. -/
def jobById (s : CState) (i : String) : Option Computation :=
  s.jobs.find? (fun c => c.id == i)

/-- `parameters?.iterations || 100`: optional chaining plus JS `||`, under
which an absent bag, an absent field and the falsy value `0` all give 100. -/
def getIterations : Option Params → Nat
  | none => 100
  | some ps =>
    match ps.iterations with
    | none => 100
    | some 0 => 100
    | some (n + 1) => n + 1

/-- The 202 response body of `triggerRecomputation`:
`{ success: true, message: 'Computation initiated', computation: { id, status } }`. -/
structure SubmitResp where
  httpStatus : Nat
  success : Bool
  message : String
  id : String
  status : String
deriving DecidableEq

/-- The object literal built by `triggerRecomputation`:
`{ id: uuidv4(), datasetId, status: 'running', startedAt: new Date(),
parameters, options, progress: 0 }`. -/
def newComputation (id datasetId : String) (parameters : Option Params)
    (options : Option String) (t : Nat) : Computation :=
  { id := id, datasetId := datasetId, status := "running", startedAt := t,
    parameters := parameters, options := options, progress := 0,
    completedAt := none, cancelledAt := none, results := none }

/-- `triggerRecomputation` (minus the HTTP plumbing): build the computation
record with `status: 'running'`, `progress: 0`, store it, arm the one-shot
completion timer for its id, and answer 202 immediately. -/
def triggerRecomputation (s : CState) (id datasetId : String)
    (parameters : Option Params) (options : Option String) (t : Nat) :
    CState × SubmitResp :=
  let computation : Computation := newComputation id datasetId parameters options t
  ({ jobs := s.jobs ++ [computation],
     pendingTimers := s.pendingTimers ++ [computation.id],
     schedules := s.schedules },
   { httpStatus := 202, success := true, message := "Computation initiated",
     id := computation.id, status := computation.status })

/-- The body of the `setTimeout` callback, applied to the record it finds:
`comp.status = 'completed'; comp.progress = 100; comp.completedAt = new Date();
comp.results = { accuracy, iterations, convergence: true }`.  The closed-over
`parameters` equals the stored `c.parameters` (the record is never mutated
elsewhere before the callback runs). -/
def fireUpdate (t : Nat) (r : ℚ) (c : Computation) : Computation :=
  { c with status := "completed", progress := 100, completedAt := some t,
           results := some { accuracy := r * (2 / 10) + 8 / 10,
                             iterations := getIterations c.parameters,
                             convergence := true } }

/-- Firing the one-shot timer armed for id `i`: `const comp =
this.computations.get(i); if (comp) { ...fireUpdate... }` — note the only
guard is existence, not `comp.status === 'running'`.  Firing disarms the
timer. -/
def fireTimer (s : CState) (i : String) (t : Nat) (r : ℚ) : CState :=
  { jobs := s.jobs.map (fun c => if c.id == i then fireUpdate t r c else c),
    pendingTimers := s.pendingTimers.filter (fun j => j != i),
    schedules := s.schedules }

/-- Response of `cancelComputation`: 404 `{ success: false, error:
'Computation not found' }`, or 200 `{ success: true, message: 'Computation
cancelled', computation: { id, status } }`.  The source has no other outcome
(in particular no 409 / invalid-state case). -/
inductive CancelResp
  | notFound
  | ok (id status : String)
deriving DecidableEq

/-- Transport status code of a cancel response. -/
def CancelResp.httpStatus : CancelResp → Nat
  | .notFound => 404
  | .ok _ _ => 200

/-- `cancelComputation`: looks the record up; if absent answer 404; otherwise
unconditionally set `status = 'cancelled'` and `cancelledAt = new Date()` and
answer 200 with the (now cancelled) id/status.  There is no check of the
current status. -/
def cancelComputation (s : CState) (i : String) (t : Nat) :
    CState × CancelResp :=
  match jobById s i with
  | none => (s, CancelResp.notFound)
  | some _ =>
    ({ jobs := s.jobs.map (fun c =>
         if c.id == i then { c with status := "cancelled", cancelledAt := some t }
         else c),
       pendingTimers := s.pendingTimers,
       schedules := s.schedules },
     CancelResp.ok i "cancelled")

/-- Response of `getComputationResults`: 404 when unknown; 202 `{ success:
false, message: 'Computation still in progress', status, progress }` when the
status is not `'completed'` (note: no results field in that shape); 200
`{ success: true, results, metadata: { computationId, datasetId, completedAt } }`
when completed. -/
inductive ResultsResp
  | notFound
  | inProgress (status : String) (progress : Nat)
  | ok (results : Option CompResults) (computationId datasetId : String)
       (completedAt : Option Nat)
deriving DecidableEq

/-- Transport status code of a results response. -/
def ResultsResp.httpStatus : ResultsResp → Nat
  | .notFound => 404
  | .inProgress _ _ => 202
  | .ok _ _ _ _ => 200

/-- `getComputationResults`. -/
def getComputationResults (s : CState) (i : String) : ResultsResp :=
  match jobById s i with
  | none => ResultsResp.notFound
  | some c =>
    if c.status == "completed" then
      ResultsResp.ok c.results c.id c.datasetId c.completedAt
    else
      ResultsResp.inProgress c.status c.progress

/-- Response of `getComputationHistory`: the sliced list plus the echoed
pagination object. -/
structure HistoryResp where
  computations : List Computation
  page : Nat
  limit : Nat
  total : Nat
deriving DecidableEq

/-- JS truthiness of the `status` query value: absent and the empty string
are falsy. -/
def truthyStatus : Option String → Bool
  | none => false
  | some st => st != ""

/-- `getComputationHistory`: filter by exact status match when the query
value is truthy, then answer `filtered.slice(0, limit)` — the `page` query
parameter is read and echoed but never used to offset the slice — with
`total = filtered.length`. -/
def getComputationHistory (s : CState) (page limit : Nat)
    (status : Option String) : HistoryResp :=
  let computations := s.jobs
  let filtered :=
    if truthyStatus status then
      computations.filter (fun c => c.status == status.getD "")
    else computations
  { computations := filtered.take limit,
    page := page, limit := limit, total := filtered.length }

/-- The metrics object of `getMetrics`. -/
structure Metrics where
  total : Nat
  running : Nat
  completed : Nat
  failed : Nat
  cancelled : Nat
  averageComputationTime : Nat
  successRate : ℚ
  activeSchedules : Nat
deriving DecidableEq

/-- `getMetrics`: counts by exact status string over the whole map, plus the
hard-coded `averageComputationTime: 5234` and `successRate: 0.92`. -/
def getMetrics (s : CState) : Metrics :=
  { total := s.jobs.length,
    running := (s.jobs.filter (fun c => c.status == "running")).length,
    completed := (s.jobs.filter (fun c => c.status == "completed")).length,
    failed := (s.jobs.filter (fun c => c.status == "failed")).length,
    cancelled := (s.jobs.filter (fun c => c.status == "cancelled")).length,
    averageComputationTime := 5234,
    successRate := 92 / 100,
    activeSchedules := s.schedules }

/-- `scheduleComputation` only grows the `schedules` map; no field of any
job is touched. -/
def scheduleComputation (s : CState) : CState :=
  { s with schedules := s.schedules + 1 }

/-- One observable transition of the controller state.  `submit` carries the
uuid-freshness assumption; `fire` is enabled only for an armed timer and
carries the `Math.random()` range. -/
inductive Step : CState → CState → Prop
  | submit (s : CState) (id datasetId : String) (p : Option Params)
      (o : Option String) (t : Nat) :
      id ∉ s.jobs.map (fun c => c.id) →
      Step s (triggerRecomputation s id datasetId p o t).1
  | fire (s : CState) (i : String) (t : Nat) (r : ℚ) :
      i ∈ s.pendingTimers → 0 ≤ r → r < 1 → Step s (fireTimer s i t r)
  | cancel (s : CState) (i : String) (t : Nat) :
      Step s (cancelComputation s i t).1
  | schedule (s : CState) : Step s (scheduleComputation s)

/-- States reachable from the fresh controller. -/
inductive Reachable : CState → Prop
  | init : Reachable initState
  | step {s s' : CState} : Reachable s → Step s s' → Reachable s'

/-! ### Concrete traces used as witnesses and counterexamples -/

/-- One job "a" on dataset "d1" submitted at time 0, timer armed. -/
def sSubmitted : CState := (triggerRecomputation initState "a" "d1" none none 0).1

/-- The timer of "a" fires at time 1 with random draw 1/2. -/
def sCompleted : CState := fireTimer sSubmitted "a" 1 (1 / 2)

/-- "a" is cancelled at time 1 before its timer ever fires. -/
def sCancelled : CState := (cancelComputation sSubmitted "a" 1).1

/-- The armed timer of the already-cancelled "a" fires at time 2. -/
def sCancelThenFire : CState := fireTimer sCancelled "a" 2 (1 / 2)

/-- The already-completed "a" is cancelled at time 2. -/
def sCompletedThenCancel : CState := (cancelComputation sCompleted "a" 2).1

/-- A second job "b" submitted at time 1 after "a". -/
def sTwoJobs : CState := (triggerRecomputation sSubmitted "b" "d2" none none 1).1

theorem reachable_sSubmitted : Reachable sSubmitted :=
  Reachable.step Reachable.init
    (Step.submit initState "a" "d1" none none 0 (by decide))

theorem reachable_sCompleted : Reachable sCompleted :=
  Reachable.step reachable_sSubmitted
    (Step.fire sSubmitted "a" 1 (1 / 2) (by decide) (by norm_num) (by norm_num))

theorem reachable_sCancelled : Reachable sCancelled :=
  Reachable.step reachable_sSubmitted (Step.cancel sSubmitted "a" 1)

theorem reachable_sCancelThenFire : Reachable sCancelThenFire :=
  Reachable.step reachable_sCancelled
    (Step.fire sCancelled "a" 2 (1 / 2) (by decide) (by norm_num) (by norm_num))

theorem reachable_sCompletedThenCancel : Reachable sCompletedThenCancel :=
  Reachable.step reachable_sCompleted (Step.cancel sCompleted "a" 2)

theorem reachable_sTwoJobs : Reachable sTwoJobs :=
  Reachable.step reachable_sSubmitted
    (Step.submit sSubmitted "b" "d2" none none 1 (by decide))

/-! ### The inductive invariant -/

/-- The status values the source ever assigns: `'running'` at submission,
`'completed'` in the timer callback, `'cancelled'` in cancel. -/
def StatusOk (c : Computation) : Prop :=
  c.status = "running" ∨ c.status = "completed" ∨ c.status = "cancelled"

/-- Terminal statuses in the sense of the spec's state machine. -/
def Terminal (c : Computation) : Prop :=
  c.status = "completed" ∨ c.status = "cancelled"

/-- Per-job invariant, relative to the armed timers: every status is one the
source assigns; a job whose timer is still armed has no `completedAt` and no
`results` yet; `results` and `completedAt` are set together (both are written
only by the timer callback); a `'completed'` status implies a result. -/
def JobInv (pending : List String) (c : Computation) : Prop :=
  StatusOk c ∧
  (c.id ∈ pending → c.completedAt = none ∧ c.results = none) ∧
  (c.results.isSome ↔ c.completedAt.isSome) ∧
  (c.status = "completed" → c.results.isSome)

/-- State invariant. -/
def Inv (s : CState) : Prop := ∀ c ∈ s.jobs, JobInv s.pendingTimers c

theorem inv_initState : Inv initState := by
  intro c hc
  simp [initState] at hc

theorem inv_step {s s' : CState} (hinv : Inv s) (hs : Step s s') : Inv s' := by
  cases hs with
  | submit id datasetId p o t hfresh =>
    intro c hc
    simp only [triggerRecomputation] at hc
    rcases List.mem_append.mp hc with hmem | hnew
    · obtain ⟨hok, hpend, hiff, hres⟩ := hinv c hmem
      refine ⟨hok, ?_, hiff, hres⟩
      intro hm
      rcases List.mem_append.mp hm with hold | hid
      · exact hpend hold
      · exfalso
        have hci : c.id = id := by simpa [newComputation] using hid
        exact hfresh (hci ▸ List.mem_map_of_mem (fun c => c.id) hmem)
    · have hc' : c = newComputation id datasetId p o t := by
        simpa using hnew
      subst hc'
      refine ⟨Or.inl rfl, fun _ => ⟨rfl, rfl⟩, by simp [newComputation], ?_⟩
      intro h
      exact absurd h (by simp [newComputation])
  | fire i t r hpend hr0 hr1 =>
    intro c' hc'
    simp only [fireTimer] at hc' ⊢
    obtain ⟨c, hc, rfl⟩ := List.mem_map.mp hc'
    obtain ⟨hok, hpendInv, hiff, hres⟩ := hinv c hc
    by_cases hid : c.id = i
    · simp only [hid, beq_self_eq_true, if_true]
      refine ⟨Or.inr (Or.inl rfl), ?_, by simp [fireUpdate], by simp [fireUpdate]⟩
      intro hm
      exfalso
      have : (fireUpdate t r c).id = i := by simp [fireUpdate, hid]
      rw [this] at hm
      simpa using (List.mem_filter.mp hm).2
    · simp only [beq_iff_eq, hid, if_false]
      refine ⟨hok, ?_, hiff, hres⟩
      intro hm
      exact hpendInv (List.mem_filter.mp hm).1
  | cancel i t =>
    cases hfound : jobById s i with
    | none =>
      simpa [cancelComputation, hfound] using hinv
    | some c₀ =>
      intro c' hc'
      simp only [cancelComputation, hfound] at hc' ⊢
      obtain ⟨c, hc, rfl⟩ := List.mem_map.mp hc'
      obtain ⟨hok, hpendInv, hiff, hres⟩ := hinv c hc
      by_cases hid : c.id = i
      · simp only [hid, beq_self_eq_true, if_true]
        exact ⟨Or.inr (Or.inr rfl),
               fun hm => hpendInv (by simp only [hid]; simpa using hm), hiff,
               fun h => absurd h (by simp)⟩
      · simp only [beq_iff_eq, hid, if_false]
        exact ⟨hok, hpendInv, hiff, hres⟩
  | schedule =>
    intro c hc
    simpa [scheduleComputation] using hinv c hc

theorem inv_reachable {s : CState} (h : Reachable s) : Inv s := by
  induction h with
  | init => exact inv_initState
  | step _ hs ih => exact inv_step ih hs

/-! ### Looking a job up after each operation -/

theorem find?_map_of_id_eq (f : Computation → Computation)
    (hf : ∀ c, (f c).id = c.id) (l : List Computation) (i : String) :
    (l.map f).find? (fun c => c.id == i) =
      (l.find? (fun c => c.id == i)).map f := by
  induction l with
  | nil => rfl
  | cons a l ih =>
    by_cases h : a.id = i
    · simp [List.find?_cons, hf, h]
    · simp [List.find?_cons, hf, h, ih]

theorem jobById_fireTimer (s : CState) (i j : String) (t : Nat) (r : ℚ) :
    jobById (fireTimer s i t r) j =
      (jobById s j).map (fun c => if c.id == i then fireUpdate t r c else c) := by
  unfold jobById fireTimer
  exact find?_map_of_id_eq _
    (fun c => by by_cases h : c.id = i <;> simp [fireUpdate, h]) s.jobs j

theorem jobById_cancel (s : CState) (i j : String) (t : Nat) (c₀ : Computation)
    (h : jobById s i = some c₀) :
    jobById (cancelComputation s i t).1 j =
      (jobById s j).map (fun c =>
        if c.id == i then { c with status := "cancelled", cancelledAt := some t }
        else c) := by
  show jobById (cancelComputation s i t).1 j = _
  rw [cancelComputation, h]
  exact find?_map_of_id_eq _
    (fun c => by by_cases hc : c.id = i <;> simp [hc]) s.jobs j

theorem jobById_submit_fresh (s : CState) (id datasetId : String)
    (p : Option Params) (o : Option String) (t : Nat)
    (hfresh : id ∉ s.jobs.map (fun c => c.id)) :
    jobById (triggerRecomputation s id datasetId p o t).1 id =
      some (newComputation id datasetId p o t) := by
  have hnone : s.jobs.find? (fun c => c.id == id) = none := by
    apply List.find?_eq_none.mpr
    intro c hc hbeq
    exact hfresh (beq_iff_eq.mp hbeq ▸ List.mem_map_of_mem (fun c => c.id) hc)
  show (s.jobs ++ [newComputation id datasetId p o t]).find?
      (fun c => c.id == id) = _
  rw [List.find?_append, hnone]
  simp [newComputation]

theorem jobById_submit_old (s : CState) (id datasetId j : String)
    (p : Option Params) (o : Option String) (t : Nat) (c : Computation)
    (h : jobById s j = some c) :
    jobById (triggerRecomputation s id datasetId p o t).1 j = some c := by
  show (s.jobs ++ [newComputation id datasetId p o t]).find?
      (fun c => c.id == j) = _
  rw [List.find?_append]
  unfold jobById at h
  rw [h]
  rfl

theorem jobById_id {s : CState} {i : String} {c : Computation}
    (h : jobById s i = some c) : c.id = i := by
  unfold jobById at h
  have hp := List.find?_some h
  simpa using hp

theorem jobById_mem {s : CState} {i : String} {c : Computation}
    (h : jobById s i = some c) : c ∈ s.jobs := by
  unfold jobById at h
  exact List.mem_of_find?_eq_some h

/-! ### The claims -/

/-- Claim C1: the spec demands that a completion trigger firing after
cancellation be a no-op, leaving `status = 'cancelled'`.  The code's
`setTimeout` callback checks only that the record still exists, never its
status, so on the concrete failing input — submit job "a", cancel it, then
let the armed timer fire — the cancelled job is resurrected: its status is
overwritten to `'completed'`, `progress` to 100, and `completedAt` is set,
exactly what the claim forbids. -/
theorem C1_trigger_resurrects_cancelled :
    (jobById sCancelled "a").map (fun c => c.status) = some "cancelled" ∧
    "a" ∈ sCancelled.pendingTimers ∧
    Reachable sCancelThenFire ∧
    (jobById sCancelThenFire "a").map
        (fun c => (c.status, c.progress, c.completedAt)) =
      some ("completed", 100, some 2) :=
  ⟨rfl, by decide, reachable_sCancelThenFire, rfl⟩

/-- Claim C2 as stated is refuted: cancelling the already-completed job "a"
does not fail with an invalid-state error — it answers 200 `ok`, and it does
mutate `cancelledAt` on a job whose `completedAt` is already set. -/
theorem C2_counterexample :
    (jobById sCompleted "a").map (fun c => c.status) = some "completed" ∧
    (cancelComputation sCompleted "a" 2).2 = CancelResp.ok "a" "cancelled" ∧
    ((cancelComputation sCompleted "a" 2).2).httpStatus = 200 ∧
    (jobById (cancelComputation sCompleted "a" 2).1 "a").map
        (fun c => c.cancelledAt) = some (some 2) :=
  ⟨rfl, rfl, rfl, rfl⟩

/-- Claim C2 amended: cancel fails (404, state unchanged) exactly on an
unknown id; on ANY stored job — whatever its current status, terminal or not
— it succeeds with 200, sets `status := 'cancelled'` and
`cancelledAt := now`, leaving every other field (in particular
`completedAt`) unchanged.  No invalid-state (409) outcome exists. -/
theorem C2_cancel_behaviour (s : CState) (i : String) (t : Nat) :
    (jobById s i = none →
      cancelComputation s i t = (s, CancelResp.notFound) ∧
      CancelResp.notFound.httpStatus = 404) ∧
    (∀ c, jobById s i = some c →
      (cancelComputation s i t).2 = CancelResp.ok i "cancelled" ∧
      ((cancelComputation s i t).2).httpStatus = 200 ∧
      jobById (cancelComputation s i t).1 i =
        some { c with status := "cancelled", cancelledAt := some t }) := by
  constructor
  · intro h
    rw [cancelComputation, h]
    exact ⟨rfl, rfl⟩
  · intro c h
    have hid : c.id = i := jobById_id h
    refine ⟨?_, ?_, ?_⟩
    · rw [cancelComputation, h]
    · rw [cancelComputation, h]
      rfl
    · rw [jobById_cancel s i i t c h, h]
      simp [hid]

/-- Witness for the amended C2 at concrete inputs: an unknown id on the
fresh controller, and the running job "a" of `sSubmitted`. -/
theorem C2_cancel_behaviour_witness :
    (cancelComputation initState "z" 0 = (initState, CancelResp.notFound) ∧
     CancelResp.notFound.httpStatus = 404) ∧
    ((cancelComputation sSubmitted "a" 1).2 = CancelResp.ok "a" "cancelled" ∧
     ((cancelComputation sSubmitted "a" 1).2).httpStatus = 200 ∧
     jobById (cancelComputation sSubmitted "a" 1).1 "a" =
       some { newComputation "a" "d1" none none 0 with
              status := "cancelled", cancelledAt := some 1 }) :=
  ⟨(C2_cancel_behaviour initState "z" 0).1 rfl,
   (C2_cancel_behaviour sSubmitted "a" 1).2
     (newComputation "a" "d1" none none 0) rfl⟩

/-- Claim C5: `getComputationResults` answers 404 on an unknown id; on a
stored job that is not completed it answers the 202 in-progress signal
carrying exactly the job's current status and progress (a shape with no
results field); on a completed job it answers 200 with the stored results
and the metadata triple (computationId, datasetId, completedAt). -/
theorem C5_getResult_cases (s : CState) (i : String) :
    (jobById s i = none →
      getComputationResults s i = ResultsResp.notFound ∧
      (getComputationResults s i).httpStatus = 404) ∧
    (∀ c, jobById s i = some c → c.status ≠ "completed" →
      getComputationResults s i = ResultsResp.inProgress c.status c.progress ∧
      (getComputationResults s i).httpStatus = 202) ∧
    (∀ c, jobById s i = some c → c.status = "completed" →
      getComputationResults s i =
        ResultsResp.ok c.results c.id c.datasetId c.completedAt ∧
      (getComputationResults s i).httpStatus = 200) := by
  refine ⟨?_, ?_, ?_⟩
  · intro h
    rw [getComputationResults, h]
    exact ⟨rfl, rfl⟩
  · intro c h hne
    rw [getComputationResults, h]
    simp [ResultsResp.httpStatus, hne]
  · intro c h heq
    rw [getComputationResults, h]
    simp [ResultsResp.httpStatus, heq]

/-- Witness for C5 at concrete inputs: unknown id on the fresh controller,
the still-running job of `sSubmitted`, and the completed job of
`sCompleted`. -/
theorem C5_getResult_cases_witness :
    (getComputationResults initState "z" = ResultsResp.notFound ∧
     (getComputationResults initState "z").httpStatus = 404) ∧
    (getComputationResults sSubmitted "a" =
       ResultsResp.inProgress "running" 0 ∧
     (getComputationResults sSubmitted "a").httpStatus = 202) ∧
    (getComputationResults sCompleted "a" =
       ResultsResp.ok
         (some { accuracy := 1 / 2 * (2 / 10) + 8 / 10, iterations := 100,
                 convergence := true }) "a" "d1" (some 1) ∧
     (getComputationResults sCompleted "a").httpStatus = 200) :=
  ⟨(C5_getResult_cases initState "z").1 rfl,
   (C5_getResult_cases sSubmitted "a").2.1
     (newComputation "a" "d1" none none 0) rfl (by decide),
   (C5_getResult_cases sCompleted "a").2.2
     (fireUpdate 1 (1 / 2) (newComputation "a" "d1" none none 0)) rfl rfl⟩

/-- Claim C6: submission stores a fresh job with status `'running'` and
progress 0, arms its one-shot completion timer, and immediately answers 202
carrying the new id and status `'running'`; the only assumption is the
freshness of the generated id. -/
theorem C6_submit (s : CState) (id datasetId : String) (p : Option Params)
    (o : Option String) (t : Nat)
    (hfresh : id ∉ s.jobs.map (fun c => c.id)) :
    (triggerRecomputation s id datasetId p o t).2.httpStatus = 202 ∧
    (triggerRecomputation s id datasetId p o t).2.id = id ∧
    (triggerRecomputation s id datasetId p o t).2.status = "running" ∧
    jobById (triggerRecomputation s id datasetId p o t).1 id =
      some (newComputation id datasetId p o t) ∧
    (newComputation id datasetId p o t).status = "running" ∧
    (newComputation id datasetId p o t).progress = 0 ∧
    id ∈ (triggerRecomputation s id datasetId p o t).1.pendingTimers :=
  ⟨rfl, rfl, rfl, jobById_submit_fresh s id datasetId p o t hfresh, rfl, rfl,
   by simp [triggerRecomputation, newComputation]⟩

/-- The record of job "a" in `sCompleted`: completed at time 1 with random
draw 1/2. -/
def completedJobA : Computation :=
  fireUpdate 1 (1 / 2) (newComputation "a" "d1" none none 0)

/-- The record of job "a" in `sCompletedThenCancel`: completed at time 1,
then cancelled at time 2. -/
def cancelledAfterCompletion : Computation :=
  { completedJobA with status := "cancelled", cancelledAt := some 2 }

/-- Claim C3 as stated is refuted: in the reachable state reached by
submitting "a", letting its timer fire, then cancelling it, BOTH terminal
timestamps are set on the same job (`completedAt = 1`, `cancelledAt = 2`),
contradicting "at most one of completedAt/cancelledAt is ever set". -/
theorem C3_counterexample :
    Reachable sCompletedThenCancel ∧
    (jobById sCompletedThenCancel "a").map
        (fun c => (c.status, c.completedAt, c.cancelledAt)) =
      some ("cancelled", some 1, some 2) :=
  ⟨reachable_sCompletedThenCancel, rfl⟩

/-- Claim C3 amended: along every step out of a reachable state, a job that
is terminal stays terminal (every status the code ever writes is
`'completed'` or `'cancelled'`), and a `completedAt` already set is never
changed (the only writer is the one-shot timer, which can still be armed
only while `completedAt` is unset).  The dropped parts — mutual exclusion of
the two terminal timestamps, and `cancelledAt` being set at most once — are
exactly what the counterexample refutes. -/
theorem C3_terminal_stability {s s' : CState} (hr : Reachable s)
    (hs : Step s s') (i : String) (c c' : Computation)
    (hc : jobById s i = some c) (hc' : jobById s' i = some c') :
    (Terminal c → Terminal c') ∧
    (∀ u, c.completedAt = some u → c'.completedAt = some u) := by
  cases hs with
  | submit id datasetId p o t hfresh =>
    rw [jobById_submit_old s id datasetId i p o t c hc] at hc'
    obtain rfl := Option.some.inj hc'
    exact ⟨fun h => h, fun u hu => hu⟩
  | fire j t r hpend hr0 hr1 =>
    rw [jobById_fireTimer s j i t r, hc] at hc'
    by_cases hid : c.id = j
    · rw [Option.map_some', if_pos (beq_iff_eq.mpr hid)] at hc'
      obtain rfl := Option.some.inj hc'
      refine ⟨fun _ => Or.inl rfl, ?_⟩
      intro u hu
      have hnone := (inv_reachable hr c (jobById_mem hc)).2.1 (hid ▸ hpend)
      rw [hnone.1] at hu
      cases hu
    · rw [Option.map_some', if_neg (by simpa using hid)] at hc'
      obtain rfl := Option.some.inj hc'
      exact ⟨fun h => h, fun u hu => hu⟩
  | cancel j t =>
    cases hfound : jobById s j with
    | none =>
      rw [show (cancelComputation s j t).1 = s by rw [cancelComputation, hfound]]
        at hc'
      rw [hc] at hc'
      obtain rfl := Option.some.inj hc'
      exact ⟨fun h => h, fun u hu => hu⟩
    | some c₀ =>
      rw [jobById_cancel s j i t c₀ hfound, hc] at hc'
      by_cases hid : c.id = j
      · rw [Option.map_some', if_pos (beq_iff_eq.mpr hid)] at hc'
        obtain rfl := Option.some.inj hc'
        exact ⟨fun _ => Or.inr rfl, fun u hu => hu⟩
      · rw [Option.map_some', if_neg (by simpa using hid)] at hc'
        obtain rfl := Option.some.inj hc'
        exact ⟨fun h => h, fun u hu => hu⟩
  | schedule =>
    rw [show jobById (scheduleComputation s) i = jobById s i from rfl, hc]
      at hc'
    obtain rfl := Option.some.inj hc'
    exact ⟨fun h => h, fun u hu => hu⟩

/-- Witness for the amended C3 at the concrete cancel step out of
`sCompleted`: the completed job "a" stays terminal and keeps
`completedAt = 1` when it is cancelled at time 2. -/
theorem C3_terminal_stability_witness :
    Terminal cancelledAfterCompletion ∧
    cancelledAfterCompletion.completedAt = some 1 :=
  ⟨(C3_terminal_stability reachable_sCompleted
      (Step.cancel sCompleted "a" 2) "a" completedJobA cancelledAfterCompletion
      rfl rfl).1 (Or.inl rfl),
   (C3_terminal_stability reachable_sCompleted
      (Step.cancel sCompleted "a" 2) "a" completedJobA cancelledAfterCompletion
      rfl rfl).2 1 rfl⟩

/-- Claim C4 as stated is refuted: in the reachable state where "a" was
cancelled after completing, its status is `'cancelled'` yet its results
field is still present — so "result present only if status is completed"
and "a cancelled job has neither" both fail on the code. -/
theorem C4_counterexample :
    Reachable sCompletedThenCancel ∧
    (jobById sCompletedThenCancel "a").map
        (fun c => (c.status, c.results.isSome)) =
      some ("cancelled", true) :=
  ⟨reachable_sCompletedThenCancel, rfl⟩

/-- Claim C4 amended: in every reachable state, a job's results field is
present exactly when its `completedAt` is set (both are written only by the
completion callback, together), and status `'completed'` implies a result is
present; the converse fails only for jobs cancelled after completion, which
keep their result.  No record ever carries an error field: the data model
has none because the code has no failure path. -/
theorem C4_results_invariant {s : CState} (hr : Reachable s) :
    ∀ c ∈ s.jobs,
      (c.results.isSome ↔ c.completedAt.isSome) ∧
      (c.status = "completed" → c.results.isSome) :=
  fun c hc =>
    ⟨(inv_reachable hr c hc).2.2.1, (inv_reachable hr c hc).2.2.2⟩

/-- Witness for the amended C4 at the cancelled-after-completion job of the
reachable state `sCompletedThenCancel`. -/
theorem C4_results_invariant_witness :
    (cancelledAfterCompletion.results.isSome ↔
      cancelledAfterCompletion.completedAt.isSome) ∧
    (cancelledAfterCompletion.status = "completed" →
      cancelledAfterCompletion.results.isSome) :=
  C4_results_invariant reachable_sCompletedThenCancel
    cancelledAfterCompletion
    (jobById_mem
      (show jobById sCompletedThenCancel "a" = some cancelledAfterCompletion
        from rfl))

/-- Claim C7: when the armed timer of a still-running job on dataset "d1"
submitted without an iterations parameter fires, the job becomes
`'completed'` with progress 100 and `completedAt` set, and
`getComputationResults` then returns the stored result — convergence true,
iterations 100, accuracy within [0,1] — together with the metadata triple
(computationId, datasetId "d1", completedAt). -/
theorem C7_fire_completes_d1 (s : CState) (i : String) (t : Nat) (r : ℚ)
    (c : Computation) (hc : jobById s i = some c)
    (hrun : c.status = "running") (hds : c.datasetId = "d1")
    (hiter : c.parameters = none ∨
      ∃ p, c.parameters = some p ∧ p.iterations = none)
    (hpend : i ∈ s.pendingTimers) (hr0 : 0 ≤ r) (hr1 : r < 1) :
    (jobById (fireTimer s i t r) i).map
        (fun c => (c.status, c.progress, c.completedAt)) =
      some ("completed", 100, some t) ∧
    ∃ res : CompResults,
      getComputationResults (fireTimer s i t r) i =
        ResultsResp.ok (some res) i "d1" (some t) ∧
      res.convergence = true ∧ res.iterations = 100 ∧
      0 ≤ res.accuracy ∧ res.accuracy ≤ 1 := by
  have hid : c.id = i := jobById_id hc
  have hfound : jobById (fireTimer s i t r) i = some (fireUpdate t r c) := by
    rw [jobById_fireTimer, hc, Option.map_some',
        if_pos (beq_iff_eq.mpr hid)]
  have hiter100 : getIterations c.parameters = 100 := by
    rcases hiter with h | ⟨p, hp, hpi⟩
    · rw [h]
      rfl
    · rw [hp]
      simp [getIterations, hpi]
  constructor
  · rw [hfound]
    rfl
  · refine ⟨{ accuracy := r * (2 / 10) + 8 / 10, iterations := 100,
              convergence := true }, ?_, rfl, rfl, ?_, ?_⟩
    · rw [getComputationResults, hfound]
      simp [fireUpdate, hid, hds, hiter100]
    · positivity
    · nlinarith

/-- Witness for C7: the timer of the freshly submitted "a" (dataset "d1", no
parameters) fires at time 1 with random draw 1/2. -/
theorem C7_fire_completes_d1_witness :
    (jobById (fireTimer sSubmitted "a" 1 (1 / 2)) "a").map
        (fun c => (c.status, c.progress, c.completedAt)) =
      some ("completed", 100, some 1) ∧
    ∃ res : CompResults,
      getComputationResults (fireTimer sSubmitted "a" 1 (1 / 2)) "a" =
        ResultsResp.ok (some res) "a" "d1" (some 1) ∧
      res.convergence = true ∧ res.iterations = 100 ∧
      0 ≤ res.accuracy ∧ res.accuracy ≤ 1 :=
  C7_fire_completes_d1 sSubmitted "a" 1 (1 / 2)
    (newComputation "a" "d1" none none 0) rfl rfl rfl (Or.inl rfl)
    (by decide) (by norm_num) (by norm_num)

/-- Claim C8: listing with a (non-empty) status filter returns only jobs
whose status equals the filter value, as a subsequence of the store in
insertion order, and the reported total is the number of matching jobs in
the whole store — the `limit` parameter never enters the total. -/
theorem C8_history_filter (s : CState) (st : String) (page limit : Nat)
    (hst : st ≠ "") :
    ((getComputationHistory s page limit (some st)).computations.all
       (fun c => c.status == st)) = true ∧
    List.Sublist (getComputationHistory s page limit (some st)).computations
      s.jobs ∧
    (getComputationHistory s page limit (some st)).total =
      (s.jobs.filter (fun c => c.status == st)).length := by
  have htruthy : truthyStatus (some st) = true := by
    simp [truthyStatus, hst]
  refine ⟨?_, ?_, ?_⟩
  · apply List.all_eq_true.mpr
    intro c hc
    simp only [getComputationHistory, htruthy, if_true, Option.getD] at hc
    exact (List.mem_filter.mp ((List.take_sublist _ _).mem hc)).2
  · simp only [getComputationHistory, htruthy, if_true]
    exact (List.take_sublist _ _).trans (List.filter_sublist _)
  · simp only [getComputationHistory, htruthy, if_true, Option.getD]

/-- Witness for C8 at the two-job store, filtering for `'running'`. -/
theorem C8_history_filter_witness :
    ((getComputationHistory sTwoJobs 1 20 (some "running")).computations.all
       (fun c => c.status == "running")) = true ∧
    List.Sublist
      (getComputationHistory sTwoJobs 1 20 (some "running")).computations
      sTwoJobs.jobs ∧
    (getComputationHistory sTwoJobs 1 20 (some "running")).total =
      (sTwoJobs.jobs.filter (fun c => c.status == "running")).length :=
  C8_history_filter sTwoJobs "running" 1 20 (by decide)

/-- Claim C9 as stated is refuted: with the two jobs "a", "b" stored in that
order, page 2 with limit 1 should return the slice at positions 1..1, namely
["b"], but the code ignores `page` and slices from index 0, returning
["a"]. -/
theorem C9_counterexample :
    (getComputationHistory sTwoJobs 2 1 none).computations.map
        (fun c => c.id) = ["a"] ∧
    ((sTwoJobs.jobs.drop ((2 - 1) * 1)).take 1).map (fun c => c.id) = ["b"] :=
  ⟨rfl, rfl⟩

/-- Claim C9 amended: the `page` parameter has no effect on the returned
slice — every page value yields the same first `limit` elements of the
filtered sequence (`slice(0, limit)`) — and the page number is merely echoed
back in the pagination object. -/
theorem C9_page_ignored (s : CState) (p₁ p₂ limit : Nat)
    (st : Option String) :
    (getComputationHistory s p₁ limit st).computations =
      (getComputationHistory s p₂ limit st).computations ∧
    (getComputationHistory s p₁ limit st).page = p₁ :=
  ⟨rfl, rfl⟩

theorem length_eq_statusCounts (l : List Computation)
    (h : ∀ c ∈ l, StatusOk c) :
    l.length = (l.filter (fun c => c.status == "running")).length +
               (l.filter (fun c => c.status == "completed")).length +
               (l.filter (fun c => c.status == "failed")).length +
               (l.filter (fun c => c.status == "cancelled")).length := by
  induction l with
  | nil => rfl
  | cons a l ih =>
    have hl := ih (fun c hc => h c (List.mem_cons_of_mem a hc))
    rcases h a (List.mem_cons_self a l) with h1 | h1 | h1 <;>
      simp [List.filter_cons, h1, hl] <;> omega

/-- Claim C10: in every reachable state every stored status is one of
`'running'`, `'completed'`, `'cancelled'` (no operation ever assigns
`'pending'` or `'failed'`), so the metrics report has `failed = 0` and its
per-status counts partition `total`. -/
theorem C10_metrics (s : CState) (hr : Reachable s) :
    (s.jobs.all (fun c =>
        c.status == "running" || c.status == "completed" ||
        c.status == "cancelled")) = true ∧
    (getMetrics s).failed = 0 ∧
    (getMetrics s).total =
      (getMetrics s).running + (getMetrics s).completed +
      (getMetrics s).failed + (getMetrics s).cancelled := by
  have hst : ∀ c ∈ s.jobs, StatusOk c := fun c hc => (inv_reachable hr c hc).1
  refine ⟨?_, ?_, ?_⟩
  · apply List.all_eq_true.mpr
    intro c hc
    rcases hst c hc with h | h | h <;> simp [h]
  · show (s.jobs.filter (fun c => c.status == "failed")).length = 0
    rw [List.length_eq_zero]
    apply List.filter_eq_nil_iff.mpr
    intro c hc
    rcases hst c hc with h | h | h <;> simp [h]
  · exact length_eq_statusCounts s.jobs hst

/-- Witness for C10 at the reachable state whose single job completed and
was then cancelled. -/
theorem C10_metrics_witness :
    (sCompletedThenCancel.jobs.all (fun c =>
        c.status == "running" || c.status == "completed" ||
        c.status == "cancelled")) = true ∧
    (getMetrics sCompletedThenCancel).failed = 0 ∧
    (getMetrics sCompletedThenCancel).total =
      (getMetrics sCompletedThenCancel).running +
      (getMetrics sCompletedThenCancel).completed +
      (getMetrics sCompletedThenCancel).failed +
      (getMetrics sCompletedThenCancel).cancelled :=
  C10_metrics sCompletedThenCancel reachable_sCompletedThenCancel

/-- Witness for C6: the first submission on the fresh controller. -/
theorem C6_submit_witness :
    (triggerRecomputation initState "a" "d1" none none 0).2.httpStatus = 202 ∧
    (triggerRecomputation initState "a" "d1" none none 0).2.id = "a" ∧
    (triggerRecomputation initState "a" "d1" none none 0).2.status = "running" ∧
    jobById (triggerRecomputation initState "a" "d1" none none 0).1 "a" =
      some (newComputation "a" "d1" none none 0) ∧
    (newComputation "a" "d1" none none 0).status = "running" ∧
    (newComputation "a" "d1" none none 0).progress = 0 ∧
    "a" ∈ (triggerRecomputation initState "a" "d1" none none 0).1.pendingTimers :=
  C6_submit initState "a" "d1" none none 0 (by decide)

end JuggernautAutonomy
